import Mathlib

/-!
# Revive: swap-chain ring and input devices

A shallow embedding of `Revive/TextureBase.h` and `Revive/InputManager.h`.

C++ `int` values are modelled as mathematical integers together with the
range predicate `IsInt`; an operation whose C++ behaviour is undefined
(signed overflow, remainder by zero, an array index outside the array)
yields `none`.
-/

namespace Revive

/-! ## TextureBase.h -/

/-- The macro `REV_SWAPCHAIN_MAX_LENGTH`. -/
abbrev REV_SWAPCHAIN_MAX_LENGTH : Nat := 3

/-- Smallest value of a 32-bit C++ `int`. -/
abbrev INT_MIN : Int := -2147483648

/-- Largest value of a 32-bit C++ `int`. -/
abbrev INT_MAX : Int := 2147483647

/-- The value is representable as a C++ `int`. -/
def IsInt (x : Int) : Prop := INT_MIN ≤ x ∧ x ≤ INT_MAX

instance (x : Int) : Decidable (IsInt x) := by
  unfold IsInt; exact inferInstance

/-- C++ `a + b` on `int`: undefined when the sum is not representable. -/
def intAdd (a b : Int) : Option Int :=
  if INT_MIN ≤ a + b ∧ a + b ≤ INT_MAX then some (a + b) else none

/-- C++ `a % b` on `int`: the remainder of the division truncated towards
zero; undefined for `b = 0` and for `INT_MIN % -1`. -/
def intMod (a b : Int) : Option Int :=
  if b = 0 then none
  else if a = INT_MIN ∧ b = -1 then none
  else some (Int.tmod a b)

/-- The struct `ovrTextureSwapChainData`. `δ` stands for
`ovrTextureSwapChainDesc` of `OVR_CAPI.h` and `τ` for the `TextureBase*`
pointer value held by one `std::unique_ptr<TextureBase>` slot. -/
structure ovrTextureSwapChainData (δ τ : Type) where
  Desc : δ
  Overlay : Nat
  Identifier : Nat
  Length : Int
  CurrentIndex : Int
  SubmitIndex : Int
  Textures : Fin REV_SWAPCHAIN_MAX_LENGTH → τ

namespace ovrTextureSwapChainData

variable {δ τ : Type}

/-- The three `int` members hold representable values. -/
def WellTyped (s : ovrTextureSwapChainData δ τ) : Prop :=
  IsInt s.Length ∧ IsInt s.CurrentIndex ∧ IsInt s.SubmitIndex

/-- Both ring indices lie in `[0, Length)`. -/
def IndicesInRange (s : ovrTextureSwapChainData δ τ) : Prop :=
  0 ≤ s.CurrentIndex ∧ s.CurrentIndex < s.Length ∧
  0 ≤ s.SubmitIndex ∧ s.SubmitIndex < s.Length

instance (s : ovrTextureSwapChainData δ τ) : Decidable (WellTyped s) := by
  unfold WellTyped; exact inferInstance

instance (s : ovrTextureSwapChainData δ τ) : Decidable (IndicesInRange s) := by
  unfold IndicesInRange; exact inferInstance

/-- `bool Full() { return (CurrentIndex + 1) % Length == SubmitIndex; }` -/
def Full (s : ovrTextureSwapChainData δ τ) : Option Bool :=
  (intAdd s.CurrentIndex 1).bind fun a =>
  (intMod a s.Length).bind fun m =>
  some (decide (m = s.SubmitIndex))

/-- `void Commit() { SubmitIndex = CurrentIndex++; CurrentIndex %= Length; }` -/
def Commit (s : ovrTextureSwapChainData δ τ) : Option (ovrTextureSwapChainData δ τ) :=
  (intAdd s.CurrentIndex 1).bind fun inc =>
  (intMod inc s.Length).bind fun m =>
  some { s with SubmitIndex := s.CurrentIndex, CurrentIndex := m }

/-- `TextureBase* Submit() { return Textures[SubmitIndex].get(); }`:
`none` when `SubmitIndex` is not an index of the array. -/
def Submit (s : ovrTextureSwapChainData δ τ) : Option τ :=
  if h : 0 ≤ s.SubmitIndex ∧ s.SubmitIndex < (REV_SWAPCHAIN_MAX_LENGTH : Int) then
    some (s.Textures ⟨s.SubmitIndex.toNat, by omega⟩)
  else none

/-- `n` consecutive calls of `Commit`. -/
def CommitN : Nat → ovrTextureSwapChainData δ τ → Option (ovrTextureSwapChainData δ τ)
  | 0, s => some s
  | n + 1, s => (CommitN n s).bind Commit

end ovrTextureSwapChainData

/-- A sample ring of three slots, used to instantiate the theorems. -/
def sampleChain : ovrTextureSwapChainData Unit Nat :=
  { Desc := (), Overlay := 0, Identifier := 7, Length := 3,
    CurrentIndex := 2, SubmitIndex := 1, Textures := fun i => 100 + i.val }

/-- A ring whose `Length` of five exceeds the three slots of `Textures`. -/
def longChain : ovrTextureSwapChainData Unit Nat :=
  { Desc := (), Overlay := 0, Identifier := 8, Length := 5,
    CurrentIndex := 3, SubmitIndex := 2, Textures := fun i => 100 + i.val }

/-! ## InputManager.h -/

/-- OpenVR `vr::VRActionSetHandle_t`, an unsigned 64-bit handle. -/
abbrev VRActionSetHandle_t := Nat

/-- OpenVR `vr::VRInputValueHandle_t`, an unsigned 64-bit handle. -/
abbrev VRInputValueHandle_t := Nat

/-- OpenVR `vr::VRActionHandle_t`, an unsigned 64-bit handle. -/
abbrev VRActionHandle_t := Nat

/-- OpenVR `vr::k_ulInvalidInputValueHandle`. -/
abbrev k_ulInvalidInputValueHandle : VRInputValueHandle_t := 0

/-- OpenVR `vr::ETrackedControllerRole`, an enumeration value. -/
abbrev ETrackedControllerRole := Nat

/-- The members of OpenVR `vr::InputDigitalActionData_t` that carry the
digital state of an action. -/
structure InputDigitalActionData_t where
  bActive : Bool
  bState : Bool
  bChanged : Bool
deriving DecidableEq, Repr

/-- The part of the OpenVR input interface `vr::VRInput()` read by the
devices: `GetDigitalActionData action handle` is the content of `data` after
`GetDigitalActionData(action, &data, sizeof(data), handle)` was called on a
zero-initialised `data`. One value of this type is one polled step. -/
structure IVRInput where
  GetDigitalActionData : VRActionHandle_t → VRInputValueHandle_t → InputDigitalActionData_t

/-- Data members of the base class `InputManager::InputDevice`; the
constructor sets `Handle` to `k_ulInvalidInputValueHandle`. -/
structure InputDevice where
  ActionSet : VRActionSetHandle_t
  Handle : VRInputValueHandle_t
deriving DecidableEq, Repr

namespace InputDevice

/-- The constructor `InputDevice(actionSet)`. -/
def new (actionSet : VRActionSetHandle_t) : InputDevice :=
  { ActionSet := actionSet, Handle := k_ulInvalidInputValueHandle }

/-- `bool GetDigital(action)`: returns `data.bState`. -/
def GetDigital (vr : IVRInput) (d : InputDevice) (action : VRActionHandle_t) : Bool :=
  let data := vr.GetDigitalActionData action d.Handle
  data.bState

/-- `bool IsPressed(action)`: returns `data.bChanged && data.bState`. -/
def IsPressed (vr : IVRInput) (d : InputDevice) (action : VRActionHandle_t) : Bool :=
  let data := vr.GetDigitalActionData action d.Handle
  data.bChanged && data.bState

/-- `bool IsReleased(action)`: returns `data.bChanged && !data.bState`. -/
def IsReleased (vr : IVRInput) (d : InputDevice) (action : VRActionHandle_t) : Bool :=
  let data := vr.GetDigitalActionData action d.Handle
  data.bChanged && !data.bState

/-- `virtual void SetVibration(float frequency, float amplitude) { }` -/
def SetVibration {F : Type} (d : InputDevice) (_frequency _amplitude : F) : InputDevice := d

/-- `virtual void SubmitVibration(const ovrHapticsBuffer* buffer) { }` -/
def SubmitVibration {B : Type} (d : InputDevice) (_buffer : B) : InputDevice := d

/-- `virtual void GetVibrationState(ovrHapticsPlaybackState* outState) { }`:
the pair of the device and of the content of `*outState` after the call. -/
def GetVibrationState {P : Type} (d : InputDevice) (outState : P) : InputDevice × P :=
  (d, outState)

end InputDevice

/-- The raw state before the poll of step `i` (`false` before the first
poll) in a sequence of raw digital states. -/
def prevState (raw : List Bool) : Nat → Bool
  | 0 => false
  | i + 1 => raw.getD i false

/-- The runtime assumption of the edge detection: at every step `i` of the
sequence `raw`, the runtime `vr i` reports for `(action, handle)` the raw
state in `bState`, and `bChanged` exactly when that state differs from the
state of the previous poll. -/
def ReportsEdges (vr : Nat → IVRInput) (raw : List Bool)
    (action : VRActionHandle_t) (handle : VRInputValueHandle_t) : Prop :=
  ∀ i, i < raw.length →
    ((vr i).GetDigitalActionData action handle).bState = raw.getD i false ∧
    ((vr i).GetDigitalActionData action handle).bChanged
      = (raw.getD i false != prevState raw i)

/-- A runtime that reports the sequence `raw` with edge flags for every
action and handle. -/
def edgeRuntime (raw : List Bool) (i : Nat) : IVRInput :=
  { GetDigitalActionData := fun _ _ =>
      { bActive := true, bState := raw.getD i false,
        bChanged := (raw.getD i false != prevState raw i) } }

/-- The operations of `HapticsBuffer` used by the devices; the class is
declared in `HapticsBuffer.h` and is a parameter here. `H` is the buffer
object, `F` stands for `float`, `B` for the pointed-to `ovrHapticsBuffer` and
`P` for `ovrHapticsPlaybackState`. `GetState` is not known to be `const`, so
it also returns the buffer object. -/
structure HapticsBufferOps (H F B P : Type) where
  SetConstant : H → F → F → H
  AddSamples : H → B → H
  GetState : H → P × H

/-- The class `InputManager::OculusTouch`. `m_Thumbstick_Center` is an
`OVR::Vector2f`, here a pair; `m_HapticsThread` is the handle of the thread. -/
structure OculusTouch (H F : Type) extends InputDevice where
  Role : ETrackedControllerRole
  m_Button_AX : VRActionHandle_t
  m_Button_BY : VRActionHandle_t
  m_Button_Thumb : VRActionHandle_t
  m_Button_Enter : VRActionHandle_t
  m_Touch_AX : VRActionHandle_t
  m_Touch_BY : VRActionHandle_t
  m_Touch_Thumb : VRActionHandle_t
  m_Touch_ThumbRest : VRActionHandle_t
  m_Touch_IndexTrigger : VRActionHandle_t
  m_IndexTrigger : VRActionHandle_t
  m_HandTrigger : VRActionHandle_t
  m_Thumbstick : VRActionHandle_t
  m_Thumbstick_Center : F × F
  m_Recenter_Thumb : VRActionHandle_t
  m_Button_IndexTrigger : VRActionHandle_t
  m_Button_HandTrigger : VRActionHandle_t
  m_Haptics : H
  m_bHapticsRunning : Bool
  m_HapticsThread : Nat

/-- The class `InputManager::OculusRemote`. -/
structure OculusRemote extends InputDevice where
  m_Button_Up : VRActionHandle_t
  m_Button_Down : VRActionHandle_t
  m_Button_Left : VRActionHandle_t
  m_Button_Right : VRActionHandle_t
  m_Button_Enter : VRActionHandle_t
  m_Button_Back : VRActionHandle_t
  m_Button_VolUp : VRActionHandle_t
  m_Button_VolDown : VRActionHandle_t
deriving DecidableEq, Repr

/-- The class `InputManager::XboxGamepad`. -/
structure XboxGamepad extends InputDevice where
  m_Button_A : VRActionHandle_t
  m_Button_B : VRActionHandle_t
  m_Button_RThumb : VRActionHandle_t
  m_Button_RShoulder : VRActionHandle_t
  m_Button_X : VRActionHandle_t
  m_Button_Y : VRActionHandle_t
  m_Button_LThumb : VRActionHandle_t
  m_Button_LShoulder : VRActionHandle_t
  m_Button_Up : VRActionHandle_t
  m_Button_Down : VRActionHandle_t
  m_Button_Left : VRActionHandle_t
  m_Button_Right : VRActionHandle_t
  m_Button_Enter : VRActionHandle_t
  m_Button_Back : VRActionHandle_t
  m_RIndexTrigger : VRActionHandle_t
  m_LIndexTrigger : VRActionHandle_t
  m_RThumbstick : VRActionHandle_t
  m_LThumbstick : VRActionHandle_t
deriving DecidableEq, Repr

/-- Bodies that the haptics hooks call and that the two headers do not
contain: the `HapticsBuffer` operations and the out-of-line body of
`XboxGamepad::SetVibration`, as its action on the gamepad object. -/
structure OutOfLine (H F B P : Type) extends HapticsBufferOps H F B P where
  XboxGamepad_SetVibration : XboxGamepad → F → F → XboxGamepad

/-- The tracking subsystem as seen by `IsConnected`: the connection state it
currently reports for a device handle. -/
structure TrackingSystem where
  connected : VRInputValueHandle_t → Bool

namespace OculusTouch

variable {H F B P : Type}

/-- `SetVibration(frequency, amplitude) { m_Haptics.SetConstant(frequency, amplitude); }` -/
def SetVibration (ops : HapticsBufferOps H F B P) (d : OculusTouch H F)
    (frequency amplitude : F) : OculusTouch H F :=
  { d with m_Haptics := ops.SetConstant d.m_Haptics frequency amplitude }

/-- `SubmitVibration(buffer) { m_Haptics.AddSamples(buffer); }` -/
def SubmitVibration (ops : HapticsBufferOps H F B P) (d : OculusTouch H F)
    (buffer : B) : OculusTouch H F :=
  { d with m_Haptics := ops.AddSamples d.m_Haptics buffer }

/-- `GetVibrationState(outState) { *outState = m_Haptics.GetState(); }`:
the pair of the device and of the content of `*outState` after the call. -/
def GetVibrationState (ops : HapticsBufferOps H F B P) (d : OculusTouch H F)
    (_outState : P) : OculusTouch H F × P :=
  let r := ops.GetState d.m_Haptics
  ({ d with m_Haptics := r.2 }, r.1)

/-- Modelled from the spec: the body of `OculusTouch::IsConnected`, which
`InputManager.h` only declares. The spec says that connection status is
queried live from the tracking subsystem, which provides a
device-connection boolean per device. -/
def IsConnected (ts : TrackingSystem) (d : OculusTouch H F) : Bool :=
  ts.connected d.Handle

end OculusTouch

namespace OculusRemote

/-- `OculusRemote` does not override `SetVibration`: the call runs the body
of the base class on the base subobject. -/
def SetVibration {F : Type} (d : OculusRemote) (frequency amplitude : F) : OculusRemote :=
  { d with toInputDevice := d.toInputDevice.SetVibration frequency amplitude }

/-- `OculusRemote` does not override `SubmitVibration`. -/
def SubmitVibration {B : Type} (d : OculusRemote) (buffer : B) : OculusRemote :=
  { d with toInputDevice := d.toInputDevice.SubmitVibration buffer }

/-- `OculusRemote` does not override `GetVibrationState`. -/
def GetVibrationState {P : Type} (d : OculusRemote) (outState : P) : OculusRemote × P :=
  let r := d.toInputDevice.GetVibrationState outState
  ({ d with toInputDevice := r.1 }, r.2)

/-- Modelled from the spec: the body of `OculusRemote::IsConnected`, which
`InputManager.h` only declares. The spec says that connection status is
queried live from the tracking subsystem, which provides a
device-connection boolean per device. -/
def IsConnected (ts : TrackingSystem) (d : OculusRemote) : Bool :=
  ts.connected d.Handle

end OculusRemote

namespace XboxGamepad

/-- `virtual void SetVibration(float frequency, float amplitude);`: the
override is declared in the class and defined out of line. -/
def SetVibration {H F B P : Type} (ext : OutOfLine H F B P) (d : XboxGamepad)
    (frequency amplitude : F) : XboxGamepad :=
  ext.XboxGamepad_SetVibration d frequency amplitude

/-- `XboxGamepad` does not override `SubmitVibration`. -/
def SubmitVibration {B : Type} (d : XboxGamepad) (buffer : B) : XboxGamepad :=
  { d with toInputDevice := d.toInputDevice.SubmitVibration buffer }

/-- `XboxGamepad` does not override `GetVibrationState`. -/
def GetVibrationState {P : Type} (d : XboxGamepad) (outState : P) : XboxGamepad × P :=
  let r := d.toInputDevice.GetVibrationState outState
  ({ d with toInputDevice := r.1 }, r.2)

/-- `virtual bool IsConnected() const { return true; }` -/
def IsConnected (_d : XboxGamepad) : Bool := true

end XboxGamepad

/-- Every member of the device other than `m_Haptics` has the same value
in `d` and in `e`. -/
def OculusTouch.SameExceptHaptics {H F : Type} (d e : OculusTouch H F) : Prop :=
  e.toInputDevice = d.toInputDevice ∧ e.Role = d.Role ∧
  e.m_Button_AX = d.m_Button_AX ∧ e.m_Button_BY = d.m_Button_BY ∧
  e.m_Button_Thumb = d.m_Button_Thumb ∧ e.m_Button_Enter = d.m_Button_Enter ∧
  e.m_Touch_AX = d.m_Touch_AX ∧ e.m_Touch_BY = d.m_Touch_BY ∧
  e.m_Touch_Thumb = d.m_Touch_Thumb ∧ e.m_Touch_ThumbRest = d.m_Touch_ThumbRest ∧
  e.m_Touch_IndexTrigger = d.m_Touch_IndexTrigger ∧
  e.m_IndexTrigger = d.m_IndexTrigger ∧ e.m_HandTrigger = d.m_HandTrigger ∧
  e.m_Thumbstick = d.m_Thumbstick ∧ e.m_Thumbstick_Center = d.m_Thumbstick_Center ∧
  e.m_Recenter_Thumb = d.m_Recenter_Thumb ∧
  e.m_Button_IndexTrigger = d.m_Button_IndexTrigger ∧
  e.m_Button_HandTrigger = d.m_Button_HandTrigger ∧
  e.m_bHapticsRunning = d.m_bHapticsRunning ∧ e.m_HapticsThread = d.m_HapticsThread

/-- An object behind an `InputDevice*` of `m_InputDevices`: one of the three
concrete classes. -/
inductive Device (H F : Type) where
  | touch : OculusTouch H F → Device H F
  | remote : OculusRemote → Device H F
  | gamepad : XboxGamepad → Device H F

namespace Device

variable {H F B P : Type}

/-- The base-class subobject of a device. -/
def toInputDevice : Device H F → InputDevice
  | .touch d => d.toInputDevice
  | .remote d => d.toInputDevice
  | .gamepad d => d.toInputDevice

/-- Virtual call `device->SetVibration(frequency, amplitude)`. -/
def SetVibration (ext : OutOfLine H F B P) : Device H F → F → F → Device H F
  | .touch d, f, a => .touch (d.SetVibration ext.toHapticsBufferOps f a)
  | .remote d, f, a => .remote (d.SetVibration f a)
  | .gamepad d, f, a => .gamepad (d.SetVibration ext f a)

/-- Virtual call `device->SubmitVibration(buffer)`. -/
def SubmitVibration (ext : OutOfLine H F B P) : Device H F → B → Device H F
  | .touch d, b => .touch (d.SubmitVibration ext.toHapticsBufferOps b)
  | .remote d, b => .remote (d.SubmitVibration b)
  | .gamepad d, b => .gamepad (d.SubmitVibration b)

/-- Virtual call `device->GetVibrationState(outState)`: the pair of the
device and of the content of `*outState` after the call. -/
def GetVibrationState (ext : OutOfLine H F B P) : Device H F → P → Device H F × P
  | .touch d, o =>
    let r := d.GetVibrationState ext.toHapticsBufferOps o
    (.touch r.1, r.2)
  | .remote d, o =>
    let r := d.GetVibrationState o
    (.remote r.1, r.2)
  | .gamepad d, o =>
    let r := d.GetVibrationState o
    (.gamepad r.1, r.2)

/-- Virtual call `device->IsConnected()`. -/
def IsConnected (ts : TrackingSystem) : Device H F → Bool
  | .touch d => d.IsConnected ts
  | .remote d => d.IsConnected ts
  | .gamepad d => d.IsConnected

end Device

/-- A gamepad, used to instantiate the theorems. -/
def sampleGamepad : XboxGamepad :=
  { ActionSet := 1, Handle := 6, m_Button_A := 20, m_Button_B := 21,
    m_Button_RThumb := 22, m_Button_RShoulder := 23, m_Button_X := 24,
    m_Button_Y := 25, m_Button_LThumb := 26, m_Button_LShoulder := 27,
    m_Button_Up := 28, m_Button_Down := 29, m_Button_Left := 30,
    m_Button_Right := 31, m_Button_Enter := 32, m_Button_Back := 33,
    m_RIndexTrigger := 34, m_LIndexTrigger := 35, m_RThumbstick := 36,
    m_LThumbstick := 37 }

/-- A tracking subsystem that reports no device as connected. -/
def nothingConnected : TrackingSystem := { connected := fun _ => false }

/-! ### Pose derivation -/

/-- A 3-vector over the scalar type `F`. -/
structure Vector3 (F : Type) where
  x : F
  y : F
  z : F
deriving DecidableEq, Repr

/-- A quaternion over the scalar type `F`. -/
structure Quat (F : Type) where
  x : F
  y : F
  z : F
  w : F
deriving DecidableEq, Repr

namespace Vector3

variable {F : Type}

/-- The zero vector. -/
def zero [Zero F] : Vector3 F := ⟨0, 0, 0⟩

/-- Componentwise difference. -/
def sub [Sub F] (a b : Vector3 F) : Vector3 F := ⟨a.x - b.x, a.y - b.y, a.z - b.z⟩

/-- Division of every component by a scalar. -/
def divScalar [Div F] (a : Vector3 F) (s : F) : Vector3 F := ⟨a.x / s, a.y / s, a.z / s⟩

end Vector3

/-- Modelled from the spec: the raw Pose Sample of the data model (the
content of a `vr::TrackedDevicePose_t`, a type of `openvr.h`): position, orientation, velocity, angular velocity and a
validity flag. -/
structure TrackedDevicePose_t (F : Type) where
  Position : Vector3 F
  Orientation : Quat F
  Velocity : Vector3 F
  AngularVelocity : Vector3 F
  bPoseIsValid : Bool
deriving DecidableEq, Repr

/-- Modelled from the spec: the derived Pose State of the data model (an
`ovrPoseStatef`, a type of `OVR_CAPI.h`): the pose
sample plus linear and angular acceleration. The status bitmask is the
result of the separate member `TrackedDevicePoseToOVRStatusFlags` and is not
part of this value. -/
structure ovrPoseStatef (F : Type) where
  Position : Vector3 F
  Orientation : Quat F
  LinearVelocity : Vector3 F
  AngularVelocity : Vector3 F
  LinearAcceleration : Vector3 F
  AngularAcceleration : Vector3 F
deriving DecidableEq, Repr

/-- Modelled from the spec: the body of
`InputManager::TrackedDevicePoseToOVRPose`, which `InputManager.h` only
declares. Following `derivePose(rawSample, previousPoseState, elapsedSeconds)`
of the spec: position, orientation, velocity and angular velocity are copied
from the raw sample; the linear acceleration is
`(rawSample.velocity - previousPoseState.velocity) / elapsedSeconds`, and
zero if `elapsedSeconds <= 0`; the angular acceleration likewise. The scalar
type `F` with its zero, subtraction, division and comparison is a
parameter. -/
def TrackedDevicePoseToOVRPose {F : Type} [Zero F] [Sub F] [Div F] [LE F]
    [∀ a b : F, Decidable (a ≤ b)]
    (pose : TrackedDevicePose_t F) (lastPose : ovrPoseStatef F) (elapsedSeconds : F) :
    ovrPoseStatef F :=
  { Position := pose.Position
    Orientation := pose.Orientation
    LinearVelocity := pose.Velocity
    AngularVelocity := pose.AngularVelocity
    LinearAcceleration :=
      if elapsedSeconds ≤ 0 then Vector3.zero
      else (pose.Velocity.sub lastPose.LinearVelocity).divScalar elapsedSeconds
    AngularAcceleration :=
      if elapsedSeconds ≤ 0 then Vector3.zero
      else (pose.AngularVelocity.sub lastPose.AngularVelocity).divScalar elapsedSeconds }

/-- A raw pose sample over the rationals, used to instantiate the theorems. -/
def samplePose : TrackedDevicePose_t ℚ :=
  { Position := ⟨1, 2, 3⟩, Orientation := ⟨0, 0, 0, 1⟩, Velocity := ⟨4, 5, 6⟩,
    AngularVelocity := ⟨7, 8, 9⟩, bPoseIsValid := true }

/-- A previous pose state over the rationals, used to instantiate the theorems. -/
def sampleLastPose : ovrPoseStatef ℚ :=
  { Position := ⟨0, 0, 0⟩, Orientation := ⟨0, 0, 0, 1⟩, LinearVelocity := ⟨1, 1, 1⟩,
    AngularVelocity := ⟨2, 2, 2⟩, LinearAcceleration := ⟨0, 0, 0⟩,
    AngularAcceleration := ⟨0, 0, 0⟩ }

/-! ## Theorems -/

/-! ### Input devices -/

/-- C1: for every finite sequence `raw` of raw digital states of one action,
polled once per step by a runtime that reports `bChanged` exactly when
`bState` differs from the previously polled state (`false` before the first
poll): at every step `IsPressed` is true exactly when the state goes from
false to true, `IsReleased` is true exactly when it goes from true to false,
and the two are never both true; for `[false, true, true, false]`,
`IsPressed` is true only at the second step and `IsReleased` only at the
fourth. -/
theorem IsPressed_IsReleased_edges (d : InputDevice) (action : VRActionHandle_t)
    (raw : List Bool) (vr : Nat → IVRInput)
    (h : ReportsEdges vr raw action d.Handle) :
    (∀ i, i < raw.length →
      (d.IsPressed (vr i) action = true ↔
        prevState raw i = false ∧ raw.getD i false = true) ∧
      (d.IsReleased (vr i) action = true ↔
        prevState raw i = true ∧ raw.getD i false = false) ∧
      ¬ (d.IsPressed (vr i) action = true ∧ d.IsReleased (vr i) action = true)) ∧
    (raw = [false, true, true, false] →
      (List.range 4).map (fun i => d.IsPressed (vr i) action)
        = [false, true, false, false] ∧
      (List.range 4).map (fun i => d.IsReleased (vr i) action)
        = [false, false, false, true]) := by
  have key : ∀ i, i < raw.length →
      d.IsPressed (vr i) action = (!prevState raw i && raw.getD i false) ∧
      d.IsReleased (vr i) action = (prevState raw i && !raw.getD i false) := by
    intro i hi
    obtain ⟨hs, hc⟩ := h i hi
    simp only [InputDevice.IsPressed, InputDevice.IsReleased, hs, hc]
    cases prevState raw i <;> cases raw.getD i false <;> simp
  constructor
  · intro i hi
    obtain ⟨hp, hr⟩ := key i hi
    rw [hp, hr]
    cases prevState raw i <;> cases raw.getD i false <;> simp
  · intro hraw
    subst hraw
    have h0 := key 0 (by decide)
    have h1 := key 1 (by decide)
    have h2 := key 2 (by decide)
    have h3 := key 3 (by decide)
    simp only [List.range, List.range.loop, List.map, h0.1, h1.1, h2.1, h3.1,
      h0.2, h1.2, h2.2, h3.2]
    decide

/-- Instance of C1: the runtime `edgeRuntime` reports edges for
`[false, true, true, false]`, and the press and release events are the
expected ones. -/
theorem IsPressed_IsReleased_edges_witness :
    ReportsEdges (edgeRuntime [false, true, true, false]) [false, true, true, false] 3
        (InputDevice.new 1).Handle ∧
      (List.range 4).map (fun i => (InputDevice.new 1).IsPressed
          (edgeRuntime [false, true, true, false] i) 3) = [false, true, false, false] ∧
      (List.range 4).map (fun i => (InputDevice.new 1).IsReleased
          (edgeRuntime [false, true, true, false] i) 3) = [false, false, false, true] :=
  ⟨fun _ _ => ⟨rfl, rfl⟩,
   (IsPressed_IsReleased_edges (InputDevice.new 1) 3 [false, true, true, false]
      (edgeRuntime [false, true, true, false]) (fun _ _ => ⟨rfl, rfl⟩)).2 rfl⟩

section Haptics

variable {H F B P : Type}

/-- C2: on the simple remote each of the three haptics hooks is a no-op:
`SetVibration` and `SubmitVibration` return the device unchanged for every
frequency, amplitude and buffer, and `GetVibrationState` leaves the device
and the content of `*outState` unchanged. -/
theorem OculusRemote_haptics_noop (ext : OutOfLine H F B P) (d : OculusRemote)
    (frequency amplitude : F) (buffer : B) (outState : P) :
    Device.SetVibration ext (Device.remote d) frequency amplitude = Device.remote d ∧
    Device.SubmitVibration ext (Device.remote d) buffer = Device.remote d ∧
    Device.GetVibrationState ext (Device.remote d) outState
      = (Device.remote d, outState) :=
  ⟨rfl, rfl, rfl⟩

/-- C3: on the gamepad `SetVibration` is the only overridden haptics hook
(the call runs the out-of-line body of the class), while `SubmitVibration`
and `GetVibrationState` are the no-ops of the base class: the device and
the content of `*outState` are unchanged for every buffer and `outState`. -/
theorem XboxGamepad_haptics_hooks (ext : OutOfLine H F B P) (d : XboxGamepad)
    (frequency amplitude : F) (buffer : B) (outState : P) :
    Device.SetVibration ext (Device.gamepad d) frequency amplitude
      = Device.gamepad (ext.XboxGamepad_SetVibration d frequency amplitude) ∧
    Device.SubmitVibration ext (Device.gamepad d) buffer = Device.gamepad d ∧
    Device.GetVibrationState ext (Device.gamepad d) outState
      = (Device.gamepad d, outState) :=
  ⟨rfl, rfl, rfl⟩

/-- C10: on the dual hand-controller, `SetVibration(f, a)` replaces the
haptics buffer by the result of `SetConstant(f, a)`, `SubmitVibration(b)` by
the result of `AddSamples(b)`, and `GetVibrationState` writes to `*outState`
the value returned by `GetState()` of the buffer; every other member of the
device keeps its value in all three calls. -/
theorem OculusTouch_haptics_routing (ext : OutOfLine H F B P) (d : OculusTouch H F)
    (frequency amplitude : F) (buffer : B) (outState : P) :
    (∃ e, Device.SetVibration ext (Device.touch d) frequency amplitude = Device.touch e ∧
      e.m_Haptics = ext.SetConstant d.m_Haptics frequency amplitude ∧
      d.SameExceptHaptics e) ∧
    (∃ e, Device.SubmitVibration ext (Device.touch d) buffer = Device.touch e ∧
      e.m_Haptics = ext.AddSamples d.m_Haptics buffer ∧
      d.SameExceptHaptics e) ∧
    (∃ e, Device.GetVibrationState ext (Device.touch d) outState
        = (Device.touch e, (ext.GetState d.m_Haptics).1) ∧
      e.m_Haptics = (ext.GetState d.m_Haptics).2 ∧
      d.SameExceptHaptics e) := by
  refine ⟨⟨_, rfl, rfl, ?_⟩, ⟨_, rfl, rfl, ?_⟩, ⟨_, rfl, rfl, ?_⟩⟩ <;>
    simp [OculusTouch.SameExceptHaptics, OculusTouch.SetVibration,
      OculusTouch.SubmitVibration, OculusTouch.GetVibrationState]

/-- C4, as amended: for the dual hand-controller and the simple remote,
`IsConnected` returns the connection state that the tracking subsystem
currently reports for the device; for the gamepad `IsConnected` returns
true whatever the tracking subsystem reports. -/
theorem IsConnected_live_except_gamepad (ts : TrackingSystem) :
    (∀ d : OculusTouch H F,
      Device.IsConnected ts (Device.touch d) = ts.connected d.Handle) ∧
    (∀ d : OculusRemote,
      Device.IsConnected ts (Device.remote d : Device H F) = ts.connected d.Handle) ∧
    (∀ d : XboxGamepad,
      Device.IsConnected ts (Device.gamepad d : Device H F) = true) :=
  ⟨fun _ => rfl, fun _ => rfl, fun _ => rfl⟩

end Haptics

/-- C4 fails for the gamepad: with a tracking subsystem that reports no
device as connected, `IsConnected` of the gamepad still returns true. -/
theorem IsConnected_gamepad_not_live :
    nothingConnected.connected sampleGamepad.Handle = false ∧
    Device.IsConnected nothingConnected (Device.gamepad sampleGamepad : Device Unit Unit)
      = true ∧
    ¬ (∀ (ts : TrackingSystem) (dev : Device Unit Unit),
        Device.IsConnected ts dev = ts.connected dev.toInputDevice.Handle) := by
  refine ⟨rfl, rfl, ?_⟩
  intro hall
  have h := hall nothingConnected (Device.gamepad sampleGamepad)
  exact absurd h (by decide)

/-! ### Pose derivation -/

/-- C6: for every raw pose sample and every previous pose state, deriving
the pose state with an elapsed time `<= 0` gives linear and angular
accelerations that are exactly the zero vector, while position, orientation,
linear velocity and angular velocity are those of the raw sample. -/
theorem TrackedDevicePoseToOVRPose_nonpositive_elapsed {F : Type}
    [Zero F] [Sub F] [Div F] [LE F] [∀ a b : F, Decidable (a ≤ b)]
    (pose : TrackedDevicePose_t F) (lastPose : ovrPoseStatef F) (elapsedSeconds : F)
    (h : elapsedSeconds ≤ 0) :
    (TrackedDevicePoseToOVRPose pose lastPose elapsedSeconds).LinearAcceleration
      = Vector3.zero ∧
    (TrackedDevicePoseToOVRPose pose lastPose elapsedSeconds).AngularAcceleration
      = Vector3.zero ∧
    (TrackedDevicePoseToOVRPose pose lastPose elapsedSeconds).Position = pose.Position ∧
    (TrackedDevicePoseToOVRPose pose lastPose elapsedSeconds).Orientation
      = pose.Orientation ∧
    (TrackedDevicePoseToOVRPose pose lastPose elapsedSeconds).LinearVelocity
      = pose.Velocity ∧
    (TrackedDevicePoseToOVRPose pose lastPose elapsedSeconds).AngularVelocity
      = pose.AngularVelocity := by
  simp [TrackedDevicePoseToOVRPose, h]

/-- Instance of C6 over the rationals with elapsed time `-1/2`. -/
theorem TrackedDevicePoseToOVRPose_nonpositive_elapsed_witness :
    (-1 / 2 : ℚ) ≤ 0 ∧
    (TrackedDevicePoseToOVRPose samplePose sampleLastPose (-1 / 2 : ℚ)).LinearAcceleration
      = Vector3.zero ∧
    (TrackedDevicePoseToOVRPose samplePose sampleLastPose (-1 / 2 : ℚ)).AngularAcceleration
      = Vector3.zero :=
  ⟨by norm_num,
   (TrackedDevicePoseToOVRPose_nonpositive_elapsed samplePose sampleLastPose (-1 / 2)
      (by norm_num)).1,
   (TrackedDevicePoseToOVRPose_nonpositive_elapsed samplePose sampleLastPose (-1 / 2)
      (by norm_num)).2.1⟩

/-! ### Swap-chain ring -/

namespace ovrTextureSwapChainData

variable {δ τ : Type}

/-- One `Commit` from a state whose `CurrentIndex` is in `[0, Length)`:
the call is defined and its result is the textbook ring step. -/
theorem Commit_eq (s : ovrTextureSwapChainData δ τ)
    (hT : IsInt s.Length) (hc0 : 0 ≤ s.CurrentIndex) (hc1 : s.CurrentIndex < s.Length) :
    Commit s = some { s with SubmitIndex := s.CurrentIndex,
                             CurrentIndex := (s.CurrentIndex + 1) % s.Length } := by
  simp only [IsInt, INT_MIN, INT_MAX] at hT
  have hadd : intAdd s.CurrentIndex 1 = some (s.CurrentIndex + 1) := by
    simp only [intAdd, INT_MIN, INT_MAX]
    rw [if_pos]
    constructor <;> omega
  have hmod : intMod (s.CurrentIndex + 1) s.Length
      = some ((s.CurrentIndex + 1) % s.Length) := by
    simp only [intMod, INT_MIN]
    rw [if_neg (by omega), if_neg (by omega),
      Int.tmod_eq_emod (by omega) (by omega)]
  simp [Commit, hadd, hmod]

/-- A `Commit` changes only the two indices. -/
theorem Commit_frame (s s1 : ovrTextureSwapChainData δ τ) (h : Commit s = some s1) :
    s1.Desc = s.Desc ∧ s1.Overlay = s.Overlay ∧ s1.Identifier = s.Identifier ∧
      s1.Length = s.Length ∧ s1.Textures = s.Textures := by
  unfold Commit at h
  cases ha : intAdd s.CurrentIndex 1 with
  | none => simp [ha] at h
  | some a =>
    cases hm : intMod a s.Length with
    | none => simp [ha, hm] at h
    | some m =>
      simp [ha, hm] at h
      subst h
      exact ⟨rfl, rfl, rfl, rfl, rfl⟩

/-- Closed form of `n + 1` consecutive `Commit`s. -/
theorem CommitN_succ_eq (s : ovrTextureSwapChainData δ τ)
    (hT : IsInt s.Length) (hc0 : 0 ≤ s.CurrentIndex) (hc1 : s.CurrentIndex < s.Length)
    (n : Nat) :
    CommitN (n + 1) s = some { s with SubmitIndex := (s.CurrentIndex + n) % s.Length,
                                      CurrentIndex := (s.CurrentIndex + n + 1) % s.Length } := by
  have hL : 0 < s.Length := by omega
  induction n with
  | zero =>
    simp only [CommitN, Option.some_bind]
    rw [Commit_eq s hT hc0 hc1]
    simp [Int.emod_eq_of_lt hc0 hc1]
  | succ k ih =>
    have hne : s.Length ≠ 0 := by omega
    rw [CommitN, ih, Option.some_bind]
    rw [Commit_eq
      { s with SubmitIndex := (s.CurrentIndex + k) % s.Length,
               CurrentIndex := (s.CurrentIndex + k + 1) % s.Length }
      hT (Int.emod_nonneg _ hne) (Int.emod_lt_of_pos _ hL)]
    simp only [Int.emod_add_emod]
    push_cast
    simp only [add_assoc]

/-- When `SubmitIndex` is the array index `i`, `Submit` reads slot `i`. -/
theorem Submit_eq (s : ovrTextureSwapChainData δ τ) (i : Fin REV_SWAPCHAIN_MAX_LENGTH)
    (h : (i.val : Int) = s.SubmitIndex) : Submit s = some (s.Textures i) := by
  have hi := i.isLt
  unfold Submit
  rw [dif_pos (by constructor <;> omega)]
  congr 2
  apply Fin.ext
  simp only
  omega

/-- Two residues of consecutive integers differ as soon as the modulus is
at least two. -/
theorem emod_succ_ne (a L : Int) (hL : 2 ≤ L) : a % L ≠ (a + 1) % L := by
  intro h
  have h1 : (a + 1 - a) % L = 0 :=
    (Int.emod_eq_emod_iff_emod_sub_eq_zero).mp h.symm
  have h2 : L ∣ 1 := by
    have : a + 1 - a = 1 := by ring
    rw [this] at h1
    exact Int.dvd_of_emod_eq_zero h1
  have := Int.le_of_dvd (by norm_num) h2
  omega

/-- Residues two apart differ as soon as the modulus is at least three. -/
theorem emod_add_two_ne (a L : Int) (hL : 3 ≤ L) : (a + 2) % L ≠ a % L := by
  intro h
  have h1 : (a + 2 - a) % L = 0 :=
    (Int.emod_eq_emod_iff_emod_sub_eq_zero).mp h
  have h2 : L ∣ 2 := by
    have : a + 2 - a = 2 := by ring
    rw [this] at h1
    exact Int.dvd_of_emod_eq_zero h1
  have := Int.le_of_dvd (by norm_num) h2
  omega

/-- Any number of `Commit`s from a state with both indices in range has
a result, keeps the indices in range and touches nothing else. -/
theorem CommitN_inRange (s : ovrTextureSwapChainData δ τ)
    (hT : IsInt s.Length) (hI : IndicesInRange s) (n : Nat) :
    ∃ s1, CommitN n s = some s1 ∧ IndicesInRange s1 ∧ s1.Length = s.Length ∧
      s1.Textures = s.Textures := by
  obtain ⟨hc0, hc1, hs0, hs1⟩ := hI
  have hL : 0 < s.Length := by omega
  have hne : s.Length ≠ 0 := by omega
  cases n with
  | zero => exact ⟨s, rfl, ⟨hc0, hc1, hs0, hs1⟩, rfl, rfl⟩
  | succ k =>
    refine ⟨_, CommitN_succ_eq s hT hc0 hc1 k, ?_, rfl, rfl⟩
    exact ⟨Int.emod_nonneg _ hne, Int.emod_lt_of_pos _ hL,
      Int.emod_nonneg _ hne, Int.emod_lt_of_pos _ hL⟩

/-- C7: for `Length >= 1`, `Commit` is defined on every state with
`0 <= CurrentIndex < Length` and `0 <= SubmitIndex < Length` and its result
satisfies the same predicate (with `Length` unchanged and the members still
representable); hence, when moreover `Length <= REV_SWAPCHAIN_MAX_LENGTH`,
after any number of `Commit`s `SubmitIndex` is an index of the 3-element
array and `Submit` returns that slot of `Textures` (never the out-of-range
case). -/
theorem Commit_preserves_IndicesInRange (s : ovrTextureSwapChainData δ τ)
    (hT : WellTyped s) (hL : 1 ≤ s.Length) (hI : IndicesInRange s) :
    (∃ s1, Commit s = some s1 ∧ WellTyped s1 ∧ s1.Length = s.Length ∧
        IndicesInRange s1) ∧
    (s.Length ≤ REV_SWAPCHAIN_MAX_LENGTH → ∀ n : Nat, ∃ s1, CommitN n s = some s1 ∧
        IndicesInRange s1 ∧ s1.Length = s.Length ∧
        ∃ i : Fin REV_SWAPCHAIN_MAX_LENGTH, (i.val : Int) = s1.SubmitIndex ∧
          Submit s1 = some (s.Textures i)) := by
  obtain ⟨hTL, hTC, hTS⟩ := hT
  have hI0 := hI
  obtain ⟨hc0, hc1, hs0, hs1⟩ := hI
  have hpos : 0 < s.Length := by omega
  have hne : s.Length ≠ 0 := by omega
  constructor
  · refine ⟨_, Commit_eq s hTL hc0 hc1, ?_, rfl, ?_⟩
    · have h1 := Int.emod_nonneg (s.CurrentIndex + 1) hne
      have h2 := Int.emod_lt_of_pos (s.CurrentIndex + 1) hpos
      simp only [IsInt, INT_MIN, INT_MAX] at hTL hTC ⊢
      simp only [WellTyped, IsInt, INT_MIN, INT_MAX]
      refine ⟨hTL, ⟨?_, ?_⟩, hTC⟩ <;> omega
    · exact ⟨Int.emod_nonneg _ hne, Int.emod_lt_of_pos _ hpos, hc0, hc1⟩
  · intro hmax n
    obtain ⟨s1, h1, hI1, hLen, hTex⟩ := CommitN_inRange s hTL hI0 n
    obtain ⟨hd0, hd1, hs0, hs1⟩ := hI1
    have hlt : s1.SubmitIndex.toNat < REV_SWAPCHAIN_MAX_LENGTH := by
      simp only [REV_SWAPCHAIN_MAX_LENGTH] at hmax ⊢
      omega
    refine ⟨s1, h1, ⟨hd0, hd1, hs0, hs1⟩, hLen, ⟨s1.SubmitIndex.toNat, hlt⟩, ?_, ?_⟩
    · simp only
      omega
    · rw [← hTex]
      apply Submit_eq
      simp only
      omega

/-- C8, as amended: for `Length >= 1`, `0 <= CurrentIndex = c < Length` and
`n >= 1`, `n` consecutive `Commit`s have a result and end with
`CurrentIndex = (c + n) mod Length` and `SubmitIndex = (c + n - 1) mod Length`;
`SubmitIndex` is the `CurrentIndex` of the state `p` just before the last
`Commit`; when moreover `Length <= REV_SWAPCHAIN_MAX_LENGTH` (more generally,
whenever that index is a slot `i` of the array), `Submit` returns the
texture of that slot; `Length` consecutive `Commit`s bring `CurrentIndex`
back to `c`; and for `Length >= 2` the two indices differ after the
`Commit`. -/
theorem CommitN_indices (s : ovrTextureSwapChainData δ τ)
    (hT : WellTyped s) (hL : 1 ≤ s.Length)
    (hc0 : 0 ≤ s.CurrentIndex) (hc1 : s.CurrentIndex < s.Length)
    (n : Nat) (hn : 1 ≤ n) :
    ∃ p s1, CommitN (n - 1) s = some p ∧ Commit p = some s1 ∧ CommitN n s = some s1 ∧
      s1.CurrentIndex = (s.CurrentIndex + n) % s.Length ∧
      s1.SubmitIndex = (s.CurrentIndex + n - 1) % s.Length ∧
      s1.SubmitIndex = p.CurrentIndex ∧
      (∀ i : Fin REV_SWAPCHAIN_MAX_LENGTH, (i.val : Int) = p.CurrentIndex →
        Submit s1 = some (s.Textures i)) ∧
      (s.Length ≤ REV_SWAPCHAIN_MAX_LENGTH →
        ∃ i : Fin REV_SWAPCHAIN_MAX_LENGTH, (i.val : Int) = p.CurrentIndex ∧
          Submit s1 = some (s.Textures i)) ∧
      (∃ t, CommitN s.Length.toNat s = some t ∧ t.CurrentIndex = s.CurrentIndex) ∧
      (2 ≤ s.Length → s1.SubmitIndex ≠ s1.CurrentIndex) := by
  obtain ⟨hTL, -, -⟩ := hT
  have hpos : 0 < s.Length := by omega
  have hne : s.Length ≠ 0 := by omega
  obtain ⟨k, rfl⟩ : ∃ k, n = k + 1 := ⟨n - 1, by omega⟩
  have hfin := CommitN_succ_eq s hTL hc0 hc1 k
  have hback : ∃ t, CommitN s.Length.toNat s = some t ∧
      t.CurrentIndex = s.CurrentIndex := by
    obtain ⟨j, hj⟩ : ∃ j, s.Length.toNat = j + 1 := ⟨s.Length.toNat - 1, by omega⟩
    refine ⟨_, by rw [hj]; exact CommitN_succ_eq s hTL hc0 hc1 j, ?_⟩
    have hcast : s.CurrentIndex + (j : Int) + 1 = s.CurrentIndex + s.Length := by omega
    simp only [hcast, Int.add_emod_self]
    exact Int.emod_eq_of_lt hc0 hc1
  -- the state before the last `Commit`
  obtain ⟨p, hp, hpc, hpT⟩ : ∃ p, CommitN k s = some p ∧
      p.CurrentIndex = (s.CurrentIndex + k) % s.Length ∧ p.Textures = s.Textures := by
    cases k with
    | zero =>
      refine ⟨s, rfl, ?_, rfl⟩
      simp [Int.emod_eq_of_lt hc0 hc1]
    | succ j =>
      refine ⟨_, CommitN_succ_eq s hTL hc0 hc1 j, ?_, rfl⟩
      simp only
      push_cast
      simp only [add_assoc]
  have hlast : Commit p = some
      { s with SubmitIndex := (s.CurrentIndex + k) % s.Length,
               CurrentIndex := (s.CurrentIndex + k + 1) % s.Length } := by
    have h := hfin
    rw [CommitN, hp, Option.some_bind] at h
    exact h
  have hsub : ∀ i : Fin REV_SWAPCHAIN_MAX_LENGTH, (i.val : Int) = p.CurrentIndex →
      Submit { s with SubmitIndex := (s.CurrentIndex + k) % s.Length,
                      CurrentIndex := (s.CurrentIndex + k + 1) % s.Length }
        = some (s.Textures i) := by
    intro i hi
    apply Submit_eq
    simp only
    rw [hi, hpc]
  have hslot : s.Length ≤ REV_SWAPCHAIN_MAX_LENGTH →
      ∃ i : Fin REV_SWAPCHAIN_MAX_LENGTH, (i.val : Int) = p.CurrentIndex := by
    intro hmax
    have h0 := Int.emod_nonneg (s.CurrentIndex + k) hne
    have h1 := Int.emod_lt_of_pos (s.CurrentIndex + k) hpos
    rw [← hpc] at h0 h1
    have hlt : p.CurrentIndex.toNat < REV_SWAPCHAIN_MAX_LENGTH := by
      simp only [REV_SWAPCHAIN_MAX_LENGTH] at hmax ⊢
      omega
    refine ⟨⟨p.CurrentIndex.toNat, hlt⟩, ?_⟩
    simp only
    omega
  refine ⟨p, _, by simpa using hp, hlast, hfin, ?_, ?_, ?_, hsub, ?_, hback, ?_⟩
  · simp only
    push_cast
    simp only [add_assoc]
  · simp only
    push_cast
    congr 1
    ring
  · simp only
    exact hpc.symm
  · intro hmax
    obtain ⟨i, hi⟩ := hslot hmax
    exact ⟨i, hi, hsub i hi⟩
  · intro h2
    simp only
    exact emod_succ_ne _ _ h2

/-- C9: for `Length >= 1` and `0 <= CurrentIndex < Length`, `Commit` has a
result, `Full()` evaluated on that result returns a value, and this value is
true exactly when `Length <= 2`; in particular it is false when
`Length = 3`. -/
theorem Full_after_Commit (s : ovrTextureSwapChainData δ τ)
    (hT : WellTyped s) (hL : 1 ≤ s.Length)
    (hc0 : 0 ≤ s.CurrentIndex) (hc1 : s.CurrentIndex < s.Length) :
    ∃ s1 b, Commit s = some s1 ∧ Full s1 = some b ∧
      (b = true ↔ s.Length ≤ 2) ∧ (s.Length = 3 → b = false) := by
  obtain ⟨hTL, -, -⟩ := hT
  have hpos : 0 < s.Length := by omega
  have hne : s.Length ≠ 0 := by omega
  have h1 := Int.emod_nonneg (s.CurrentIndex + 1) hne
  have h2 := Int.emod_lt_of_pos (s.CurrentIndex + 1) hpos
  have hfull : Full { s with SubmitIndex := s.CurrentIndex,
                             CurrentIndex := (s.CurrentIndex + 1) % s.Length }
      = some (decide ((s.CurrentIndex + 2) % s.Length = s.CurrentIndex)) := by
    have hadd : intAdd ((s.CurrentIndex + 1) % s.Length) 1
        = some ((s.CurrentIndex + 1) % s.Length + 1) := by
      simp only [IsInt, INT_MIN, INT_MAX] at hTL
      simp only [intAdd, INT_MIN, INT_MAX]
      rw [if_pos]
      constructor <;> omega
    have hmod : intMod ((s.CurrentIndex + 1) % s.Length + 1) s.Length
        = some ((s.CurrentIndex + 2) % s.Length) := by
      simp only [intMod, INT_MIN]
      rw [if_neg (by omega), if_neg (by omega),
        Int.tmod_eq_emod (by omega) (by omega), Int.emod_add_emod]
      congr 2
      omega
    simp only [Full, hadd, hmod, Option.some_bind]
  have hiff : (s.CurrentIndex + 2) % s.Length = s.CurrentIndex ↔ s.Length ≤ 2 := by
    constructor
    · intro h
      by_contra hgt
      have h3 : 3 ≤ s.Length := by omega
      apply emod_add_two_ne s.CurrentIndex s.Length h3
      rw [h, Int.emod_eq_of_lt hc0 hc1]
    · intro hle
      have hcases : s.Length = 1 ∨ s.Length = 2 := by omega
      rcases hcases with h | h
      · have hc : s.CurrentIndex = 0 := by omega
        rw [h, hc]; decide
      · have hc : s.CurrentIndex = 0 ∨ s.CurrentIndex = 1 := by omega
        rcases hc with hc | hc <;> rw [h, hc] <;> decide
  refine ⟨_, _, Commit_eq s hTL hc0 hc1, hfull, ?_, ?_⟩
  · simp only [decide_eq_true_eq]
    exact hiff
  · intro h3
    simp only [decide_eq_false_iff_not]
    intro h
    have := hiff.mp h
    omega

/-- Instance of C7 on `sampleChain` (three slots, `CurrentIndex = 2`,
`SubmitIndex = 1`): the hypotheses hold, one `Commit` keeps the predicate and
five `Commit`s leave `SubmitIndex` inside the array. -/
theorem Commit_preserves_IndicesInRange_witness :
    WellTyped sampleChain ∧ 1 ≤ sampleChain.Length ∧ IndicesInRange sampleChain ∧
    sampleChain.Length ≤ REV_SWAPCHAIN_MAX_LENGTH ∧
    (∃ s1, Commit sampleChain = some s1 ∧ WellTyped s1 ∧
      s1.Length = sampleChain.Length ∧ IndicesInRange s1) ∧
    (∃ s1, CommitN 5 sampleChain = some s1 ∧ IndicesInRange s1 ∧
      s1.Length = sampleChain.Length ∧
      ∃ i : Fin REV_SWAPCHAIN_MAX_LENGTH, (i.val : Int) = s1.SubmitIndex ∧
        Submit s1 = some (sampleChain.Textures i)) :=
  ⟨by decide, by decide, by decide, by decide,
   (Commit_preserves_IndicesInRange sampleChain (by decide) (by decide) (by decide)).1,
   (Commit_preserves_IndicesInRange sampleChain (by decide) (by decide) (by decide)).2
     (by decide) 5⟩

/-- Instance of C8 on `sampleChain` with four `Commit`s: from
`CurrentIndex = 2` in a ring of three slots the indices end at
`CurrentIndex = 0` and `SubmitIndex = 2`. -/
theorem CommitN_indices_witness :
    WellTyped sampleChain ∧ 1 ≤ sampleChain.Length ∧ 0 ≤ sampleChain.CurrentIndex ∧
    sampleChain.CurrentIndex < sampleChain.Length ∧ 1 ≤ 4 ∧
    ∃ s1, CommitN 4 sampleChain = some s1 ∧ s1.CurrentIndex = 0 ∧ s1.SubmitIndex = 2 ∧
      s1.SubmitIndex ≠ s1.CurrentIndex := by
  refine ⟨by decide, by decide, by decide, by decide, by decide, ?_⟩
  obtain ⟨p, s1, -, -, hN, hc, hs, -, -, -, -, hne⟩ :=
    CommitN_indices sampleChain (by decide) (by decide) (by decide) (by decide) 4 (by decide)
  exact ⟨s1, hN, hc.trans (by decide), hs.trans (by decide), hne (by decide)⟩

/-- Instance of C9 on `sampleChain`, a ring of three slots: `Full()` after
a `Commit` returns false. -/
theorem Full_after_Commit_witness :
    WellTyped sampleChain ∧ 1 ≤ sampleChain.Length ∧ 0 ≤ sampleChain.CurrentIndex ∧
    sampleChain.CurrentIndex < sampleChain.Length ∧
    ∃ s1, Commit sampleChain = some s1 ∧ Full s1 = some false := by
  refine ⟨by decide, by decide, by decide, by decide, ?_⟩
  obtain ⟨s1, b, hC, hF, -, h3⟩ :=
    Full_after_Commit sampleChain (by decide) (by decide) (by decide) (by decide)
  exact ⟨s1, hC, by rw [hF, h3 (by decide)]⟩

/-- C8 fails as stated for a ring longer than the array: on `longChain`
(`Length = 5`, `CurrentIndex = 3`) the hypotheses of the claim hold with
`n = 1`, the `Commit` ends with `CurrentIndex = 4` and `SubmitIndex = 3`, and
`Submit` then indexes `Textures` outside its three slots, so it returns no
texture of any slot. -/
theorem Submit_after_Commit_longChain_out_of_array :
    WellTyped longChain ∧ 1 ≤ longChain.Length ∧ 0 ≤ longChain.CurrentIndex ∧
    longChain.CurrentIndex < longChain.Length ∧
    ∃ s1, CommitN 1 longChain = some s1 ∧ s1.CurrentIndex = 4 ∧ s1.SubmitIndex = 3 ∧
      Submit s1 = none ∧
      ¬ ∃ i : Fin REV_SWAPCHAIN_MAX_LENGTH, Submit s1 = some (longChain.Textures i) := by
  refine ⟨by decide, by decide, by decide, by decide,
    { longChain with SubmitIndex := 3, CurrentIndex := 4 }, ?_, rfl, rfl, ?_, ?_⟩
  · rfl
  · rfl
  · rintro ⟨i, hi⟩
    have hnone : Submit { longChain with SubmitIndex := 3, CurrentIndex := 4 } = none := rfl
    rw [hnone] at hi
    exact Option.noConfusion hi

end ovrTextureSwapChainData

end Revive
